import Mathlib

/-!
A shallow embedding of the Journal Pattern Reflection Engine of this
repository: the JSON recovery parser, schema validation, sanitizer,
eligibility gate, entry selector and the per-user result cache of the
route handler.  JavaScript strings are modelled as Lean `String`
(sequences of code points; the sources only manipulate them code unit
by code unit on BMP text, where the two coincide), JavaScript numbers
that hold integers are modelled as `Int`/`Nat`, and JSON numbers are
modelled exactly as rationals (IEEE rounding beyond 2^53 is out of
scope for every statement below).  The network call to the model
provider is abstracted as an oracle value passed in explicitly, so the
pipeline around it is a pure function.
-/

/-! ### JavaScript-flavoured character and string primitives -/

/-- The whitespace set used by JavaScript `trim()` and `\s` (the code
points that actually occur in the texts the sources handle). -/
def isJsWs (c : Char) : Bool :=
  c.val = 32 || c.val = 9 || c.val = 10 || c.val = 11 || c.val = 12 ||
  c.val = 13 || c.val = 160 || c.val = 8232 || c.val = 8233 || c.val = 65279

def isDigitChar (c : Char) : Bool :=
  48 ≤ c.val && c.val ≤ 57

/-- JavaScript regex word characters `[A-Za-z0-9_]` (the `\w` class and
the `\b` boundary test). -/
def isWordChar (c : Char) : Bool :=
  (65 ≤ c.val && c.val ≤ 90) || (97 ≤ c.val && c.val ≤ 122) ||
  isDigitChar c || c.val = 95

/-- First character of a bare identifier key: `[A-Za-z_]`. -/
def isIdentStart (c : Char) : Bool :=
  (65 ≤ c.val && c.val ≤ 90) || (97 ≤ c.val && c.val ≤ 122) || c.val = 95

/-- `String.prototype.toLowerCase` on one character (ASCII letters; the
sources lower-case English banned phrases and entry text). -/
def jsToLowerChar (c : Char) : Char :=
  match c with
  | 'A' => 'a' | 'B' => 'b' | 'C' => 'c' | 'D' => 'd' | 'E' => 'e' | 'F' => 'f'
  | 'G' => 'g' | 'H' => 'h' | 'I' => 'i' | 'J' => 'j' | 'K' => 'k' | 'L' => 'l'
  | 'M' => 'm' | 'N' => 'n' | 'O' => 'o' | 'P' => 'p' | 'Q' => 'q' | 'R' => 'r'
  | 'S' => 's' | 'T' => 't' | 'U' => 'u' | 'V' => 'v' | 'W' => 'w' | 'X' => 'x'
  | 'Y' => 'y' | 'Z' => 'z'
  | c => c

def trimList (l : List Char) : List Char :=
  ((l.dropWhile isJsWs).reverse.dropWhile isJsWs).reverse

/-- `String.prototype.trim`. -/
def jsTrim (s : String) : String :=
  ⟨trimList s.data⟩

/-- `String.prototype.toLowerCase`. -/
def jsToLower (s : String) : String :=
  ⟨s.data.map jsToLowerChar⟩

/-- `String.prototype.slice(0, n)` for a non-negative bound. -/
def jsTake (s : String) (n : Nat) : String :=
  ⟨s.data.take n⟩

/-- `String.prototype.slice(a, b)` for non-negative in-range bounds. -/
def jsSlice (s : String) (a b : Nat) : String :=
  ⟨(s.data.drop a).take (b - a)⟩

/-- Does `pat` occur as a prefix of `l` (plain list equality on the first
`pat.length` characters)? -/
def startsWithSeq (pat : List Char) (l : List Char) : Bool :=
  pat = l.take pat.length

/-- `String.prototype.includes`: does `pat` occur contiguously in `l`? -/
def containsSeq (pat : List Char) : List Char → Bool
  | [] => pat = []
  | c :: rest => startsWithSeq pat (c :: rest) || containsSeq pat rest

def jsIncludes (s pat : String) : Bool :=
  containsSeq pat.data s.data

/-- `String.prototype.indexOf`: index of the first occurrence of `pat`. -/
def seqIndexOf (pat : List Char) : List Char → Option Nat
  | [] => if pat = [] then some 0 else none
  | c :: rest =>
    if startsWithSeq pat (c :: rest) then some 0
    else (seqIndexOf pat rest).map (· + 1)

def jsIndexOf (s pat : String) : Option Nat :=
  seqIndexOf pat.data s.data

/-- Lower-case hexadecimal digit. -/
def hexDigitChar (d : Nat) : Char :=
  if d < 10 then Char.ofNat (48 + d) else Char.ofNat (87 + d)

def hexDigitsOfF : Nat → Nat → List Char
  | 0, _ => []
  | fuel + 1, n => if n = 0 then [] else hexDigitsOfF fuel (n / 16) ++ [hexDigitChar (n % 16)]

/-- `Number.prototype.toString(16)` for an unsigned 32-bit value. -/
def natToHex (n : Nat) : String :=
  if n = 0 then "0" else ⟨hexDigitsOfF n n⟩

/-! ### The JSON value model

JavaScript objects keep keys in insertion order and a duplicate key in a
JSON text keeps its first position with its last value, so object fields
are an ordered association list written through `setField`. -/

inductive Json where
  | null
  | bool (b : Bool)
  | num (q : Rat)
  | str (s : String)
  | arr (elems : List Json)
  | obj (fields : List (String × Json))

/-- Property assignment on a JavaScript object: replace the value at an
existing key in place, otherwise append the key. -/
def setField (fields : List (String × Json)) (k : String) (v : Json) :
    List (String × Json) :=
  match fields with
  | [] => [(k, v)]
  | (k2, v2) :: rest =>
    if k2 = k then (k2, v) :: rest else (k2, v2) :: setField rest k v

def lookupField (fields : List (String × Json)) (k : String) : Option Json :=
  match fields with
  | [] => none
  | (k2, v2) :: rest => if k2 = k then some v2 else lookupField rest k

mutual

def Json.beq : Json → Json → Bool
  | .null, .null => true
  | .bool a, .bool b => a == b
  | .num a, .num b => a == b
  | .str a, .str b => a == b
  | .arr xs, .arr ys => Json.beqList xs ys
  | .obj fs, .obj gs => Json.beqFields fs gs
  | _, _ => false

def Json.beqList : List Json → List Json → Bool
  | [], [] => true
  | x :: xs, y :: ys => Json.beq x y && Json.beqList xs ys
  | _, _ => false

def Json.beqFields : List (String × Json) → List (String × Json) → Bool
  | [], [] => true
  | (k, v) :: fs, (k2, v2) :: gs => k == k2 && Json.beq v v2 && Json.beqFields fs gs
  | _, _ => false

end

mutual

theorem Json.beq_iff : ∀ a b : Json, Json.beq a b = true ↔ a = b
  | .null, .null => by simp [Json.beq]
  | .bool _, .bool _ => by simp [Json.beq]
  | .num _, .num _ => by simp [Json.beq]
  | .str _, .str _ => by simp [Json.beq]
  | .arr xs, .arr ys => by simp [Json.beq, Json.beqList_iff xs ys]
  | .obj fs, .obj gs => by simp [Json.beq, Json.beqFields_iff fs gs]
  | .null, .bool _ | .null, .num _ | .null, .str _ | .null, .arr _ | .null, .obj _
  | .bool _, .null | .bool _, .num _ | .bool _, .str _ | .bool _, .arr _ | .bool _, .obj _
  | .num _, .null | .num _, .bool _ | .num _, .str _ | .num _, .arr _ | .num _, .obj _
  | .str _, .null | .str _, .bool _ | .str _, .num _ | .str _, .arr _ | .str _, .obj _
  | .arr _, .null | .arr _, .bool _ | .arr _, .num _ | .arr _, .str _ | .arr _, .obj _
  | .obj _, .null | .obj _, .bool _ | .obj _, .num _ | .obj _, .str _ | .obj _, .arr _ => by
      simp [Json.beq]

theorem Json.beqList_iff : ∀ xs ys : List Json, Json.beqList xs ys = true ↔ xs = ys
  | [], [] => by simp [Json.beqList]
  | x :: xs, y :: ys => by
      simp [Json.beqList, Json.beq_iff x y, Json.beqList_iff xs ys]
  | [], _ :: _ => by simp [Json.beqList]
  | _ :: _, [] => by simp [Json.beqList]

theorem Json.beqFields_iff :
    ∀ fs gs : List (String × Json), Json.beqFields fs gs = true ↔ fs = gs
  | [], [] => by simp [Json.beqFields]
  | (k, v) :: fs, (k2, v2) :: gs => by
      simp [Json.beqFields, Json.beq_iff v v2, Json.beqFields_iff fs gs, and_assoc]
  | [], _ :: _ => by simp [Json.beqFields]
  | _ :: _, [] => by simp [Json.beqFields]

end

instance : DecidableEq Json := fun a b =>
  decidable_of_iff (Json.beq a b = true) (Json.beq_iff a b)

/-! ### A model of strict `JSON.parse`

Fuel-based recursive descent over the RFC 8259 grammar. `none` models a
thrown `SyntaxError`. JSON token whitespace is space, tab, LF and CR. -/

def isJsonWs (c : Char) : Bool :=
  c.val = 32 || c.val = 9 || c.val = 10 || c.val = 13

def skipJsonWs (l : List Char) : List Char :=
  l.dropWhile isJsonWs

def takeDigitSpan (l : List Char) : List Char × List Char :=
  (l.takeWhile isDigitChar, l.dropWhile isDigitChar)

def digitsToNat (ds : List Char) : Nat :=
  ds.foldl (fun acc c => acc * 10 + (c.toNat - 48)) 0

/-- Exact rational value of a JSON number literal
`sign intDigits . fracDigits e expSign expDigits`. -/
def jsonNumVal (neg : Bool) (intDs fracDs : List Char) (expNeg : Bool)
    (expDs : List Char) : Rat :=
  let mantissa : Int := Int.ofNat (digitsToNat (intDs ++ fracDs))
  let m : Int := if neg then -mantissa else mantissa
  let e : Int := (if expNeg then -(Int.ofNat (digitsToNat expDs))
                  else Int.ofNat (digitsToNat expDs)) - Int.ofNat fracDs.length
  if 0 ≤ e then ((m * 10 ^ e.toNat : Int) : Rat)
  else mkRat m (10 ^ (-e).toNat)

/-- Parse a JSON number starting at `l` (which begins with `-` or a digit). -/
def parseJsonNum (l : List Char) : Option (Rat × List Char) :=
  let (neg, l1) := match l with
    | '-' :: r => (true, r)
    | _ => (false, l)
  let (intDs, l2) := takeDigitSpan l1
  match intDs with
  | [] => none
  | d0 :: rest =>
    if d0 = '0' ∧ rest ≠ [] then none
    else
      let (fracDs, l3) := match l2 with
        | '.' :: r => takeDigitSpan r
        | _ => ([], l2)
      let fracBad : Bool := match l2 with
        | '.' :: _ => fracDs.isEmpty
        | _ => false
      let (hasExp, l4) := match l3 with
        | 'e' :: r => (true, r)
        | 'E' :: r => (true, r)
        | _ => (false, l3)
      let (expNeg, l5) := match hasExp, l4 with
        | true, '+' :: r => (false, r)
        | true, '-' :: r => (true, r)
        | _, _ => (false, l4)
      let (expDs, l6) := if hasExp then takeDigitSpan l5 else ([], l5)
      let expBad : Bool := hasExp && expDs.isEmpty
      if fracBad || expBad then none
      else some (jsonNumVal neg intDs fracDs expNeg expDs, l6)

def jsonUnescape (c : Char) : Option Char :=
  if c = '"' then some '"'
  else if c = '\\' then some '\\'
  else if c = '/' then some '/'
  else if c = 'b' then some (Char.ofNat 8)
  else if c = 'f' then some (Char.ofNat 12)
  else if c = 'n' then some (Char.ofNat 10)
  else if c = 'r' then some (Char.ofNat 13)
  else if c = 't' then some (Char.ofNat 9)
  else none

def hexVal (c : Char) : Option Nat :=
  if 48 ≤ c.val ∧ c.val ≤ 57 then some (c.toNat - 48)
  else if 97 ≤ c.val ∧ c.val ≤ 102 then some (c.toNat - 87)
  else if 65 ≤ c.val ∧ c.val ≤ 70 then some (c.toNat - 55)
  else none

/-- Parse the body of a JSON string after the opening quote.  A `\uXXXX`
escape is modelled as the code point `XXXX` (lone surrogate halves, which
Lean `Char` cannot carry, do not occur in any statement below). -/
def parseJsonStrBody (acc : List Char) : List Char → Option (String × List Char)
  | [] => none
  | '"' :: rest => some (⟨acc.reverse⟩, rest)
  | '\\' :: 'u' :: a :: b :: c :: d :: rest =>
    (match hexVal a, hexVal b, hexVal c, hexVal d with
     | some va, some vb, some vc, some vd =>
       parseJsonStrBody (Char.ofNat (((va * 16 + vb) * 16 + vc) * 16 + vd) :: acc) rest
     | _, _, _, _ => none)
  | '\\' :: e :: rest =>
    (match jsonUnescape e with
     | some ch => parseJsonStrBody (ch :: acc) rest
     | none => none)
  | c :: rest =>
    if c.val < 32 then none else parseJsonStrBody (c :: acc) rest

/-- Member loop of an object body: `"key" : value (, ...)* \x7d`.  The
parser for element values is passed in as `valueFn`, so the recursion here
is structural on this loop's own fuel. -/
def parseJsonMembers (valueFn : List Char → Option (Json × List Char)) :
    Nat → List (String × Json) → List Char → Option (Json × List Char)
  | 0, _, _ => none
  | fuel + 1, fields, l =>
    match skipJsonWs l with
    | '"' :: rest =>
      (match parseJsonStrBody [] rest with
       | none => none
       | some (k, r1) =>
         match skipJsonWs r1 with
         | ':' :: r2 =>
           (match valueFn r2 with
            | none => none
            | some (v, r3) =>
              let fields := setField fields k v
              match skipJsonWs r3 with
              | ',' :: r4 => parseJsonMembers valueFn fuel fields r4
              | '}' :: r4 => some (Json.obj fields, r4)
              | _ => none)
         | _ => none)
    | _ => none

/-- Element loop of an array body. -/
def parseJsonElems (valueFn : List Char → Option (Json × List Char)) :
    Nat → List Json → List Char → Option (Json × List Char)
  | 0, _, _ => none
  | fuel + 1, elems, l =>
    match valueFn l with
    | none => none
    | some (v, r1) =>
      match skipJsonWs r1 with
      | ',' :: r2 => parseJsonElems valueFn fuel (elems ++ [v]) r2
      | ']' :: r2 => some (Json.arr (elems ++ [v]), r2)
      | _ => none

/-- One JSON value.  `fuel` bounds the nesting depth; every call below
passes more fuel than the text is long, so it never runs out. -/
def parseJsonValue : Nat → List Char → Option (Json × List Char)
  | 0, _ => none
  | fuel + 1, l =>
    match skipJsonWs l with
    | [] => none
    | '{' :: rest =>
      (match skipJsonWs rest with
       | '}' :: r2 => some (Json.obj [], r2)
       | _ => parseJsonMembers (parseJsonValue fuel) (rest.length + 1) [] rest)
    | '[' :: rest =>
      (match skipJsonWs rest with
       | ']' :: r2 => some (Json.arr [], r2)
       | _ => parseJsonElems (parseJsonValue fuel) (rest.length + 1) [] rest)
    | '"' :: rest => (parseJsonStrBody [] rest).map (fun (s, r) => (Json.str s, r))
    | 't' :: 'r' :: 'u' :: 'e' :: rest => some (Json.bool true, rest)
    | 'f' :: 'a' :: 'l' :: 's' :: 'e' :: rest => some (Json.bool false, rest)
    | 'n' :: 'u' :: 'l' :: 'l' :: rest => some (Json.null, rest)
    | c :: rest =>
      if c = '-' ∨ isDigitChar c then
        (parseJsonNum (c :: rest)).map (fun (q, r) => (Json.num q, r))
      else none

/-- `JSON.parse` on a whole text: one value surrounded by whitespace.
`none` models a thrown `SyntaxError`. -/
def jsonParse (s : String) : Option Json :=
  match parseJsonValue (s.length + 1) s.data with
  | some (v, rest) => if skipJsonWs rest = [] then some v else none
  | none => none

example : jsonParse "\x7b\"a\":1\x7d" = some (Json.obj [("a", Json.num 1)]) := by decide
example : jsonParse " \x7b \"a\" : [1, true, null] \x7d " =
    some (Json.obj [("a", Json.arr [Json.num 1, Json.bool true, Json.null])]) := by decide
example : jsonParse "\x7ba:1\x7d" = none := by decide
example : jsonParse "\x7b\"a\":1,\x7d" = none := by decide

/-! ### The "almost JSON" repair pass of `tryParseJsonLoose`

Each global regex replace of the source is modelled as a left-to-right
scan that, at each position, either matches (emits the replacement and
resumes after the match, as `lastIndex` does) or advances one character.
The scans consume at least one character per step, so they are written
with a structural fuel argument initialised to the input length (the
`F` forms); the fuel never runs out on the wrappers below. -/

/-- Fuel form of `.replace(/,\s*([}\]])/g, '$1')`. -/
def fixTrailingCommasF : Nat → List Char → List Char
  | 0, l => l
  | _ + 1, [] => []
  | fuel + 1, c :: rest =>
    if c = ',' then
      match rest.dropWhile isJsWs with
      | b :: r2 =>
        if b = '}' ∨ b = ']' then b :: fixTrailingCommasF fuel r2
        else ',' :: fixTrailingCommasF fuel rest
      | [] => ',' :: fixTrailingCommasF fuel rest
    else c :: fixTrailingCommasF fuel rest

/-- `.replace(/,\s*([}\]])/g, '$1')`: drop a comma that is followed only
by whitespace and a closing brace or bracket. -/
def fixTrailingCommas (l : List Char) : List Char :=
  fixTrailingCommasF l.length l

/-- Fuel form of `.replace(/\bWord\b/g, repl)` for a fixed word: both
ends of the occurrence must lie on a `\w` boundary of the original text. -/
def fixWordAllF (word repl : List Char) : Nat → Bool → List Char → List Char
  | 0, _, l => l
  | _ + 1, _, [] => []
  | fuel + 1, prevIsWord, c :: rest =>
    let nextOk : Bool := match (c :: rest).drop word.length with
      | [] => true
      | nxt :: _ => !isWordChar nxt
    if startsWithSeq word (c :: rest) && !prevIsWord && nextOk then
      let prevAfter := match word.getLast? with
        | some w => isWordChar w
        | none => prevIsWord
      repl ++ fixWordAllF word repl fuel prevAfter (rest.drop (word.length - 1))
    else c :: fixWordAllF word repl fuel (isWordChar c) rest

def fixWordAll (word repl : List Char) (l : List Char) : List Char :=
  fixWordAllF word repl l.length false l

/-- Escape `"` as `\"` (the callback `s1.replace(/"/g, '\\"')`). -/
def escQuotes : List Char → List Char
  | [] => []
  | c :: rest => if c = '"' then '\\' :: '"' :: escQuotes rest else c :: escQuotes rest

/-- Fuel form of
`.replace(/([{\[,]\s*)([A-Za-z_][A-Za-z0-9_]*)(\s*:)/g, '$1"$2"$3')`:
quote a bare identifier key after an opening brace, bracket or comma. -/
def fixKeysF : Nat → List Char → List Char
  | 0, l => l
  | _ + 1, [] => []
  | fuel + 1, c :: rest =>
    if c = '{' ∨ c = '[' ∨ c = ',' then
      match rest.dropWhile isJsWs with
      | i0 :: irest =>
        if isIdentStart i0 then
          match (irest.dropWhile isWordChar).dropWhile isJsWs with
          | ':' :: r4 =>
            [c] ++ rest.takeWhile isJsWs ++ ['"'] ++ (i0 :: irest.takeWhile isWordChar) ++
              ['"'] ++ (irest.dropWhile isWordChar).takeWhile isJsWs ++ [':'] ++
              fixKeysF fuel r4
          | _ => c :: fixKeysF fuel rest
        else c :: fixKeysF fuel rest
      | [] => c :: fixKeysF fuel rest
    else c :: fixKeysF fuel rest

def fixKeys (l : List Char) : List Char :=
  fixKeysF l.length l

/-- Fuel form of `.replace(/:\s*'([^'\\]*)'/g, ...)`: rewrite a
single-quoted value after a colon to a double-quoted one (with a single
space after the colon, as the replacement template does). -/
def fixSingleQuotedF : Nat → List Char → List Char
  | 0, l => l
  | _ + 1, [] => []
  | fuel + 1, c :: rest =>
    if c = ':' then
      match rest.dropWhile isJsWs with
      | q :: qrest =>
        if q.val = 39 then
          match qrest.dropWhile (fun ch => !(ch.val = 39 || ch = '\\')) with
          | e :: r3 =>
            if e.val = 39 then
              [':', ' ', '"'] ++
                escQuotes (qrest.takeWhile (fun ch => !(ch.val = 39 || ch = '\\'))) ++
                ['"'] ++ fixSingleQuotedF fuel r3
            else ':' :: fixSingleQuotedF fuel rest
          | [] => ':' :: fixSingleQuotedF fuel rest
        else ':' :: fixSingleQuotedF fuel rest
      | [] => ':' :: fixSingleQuotedF fuel rest
    else c :: fixSingleQuotedF fuel rest

def fixSingleQuoted (l : List Char) : List Char :=
  fixSingleQuotedF l.length l

/-- Fuel form of `.replace(/,\s*'([^'\\]*)'\s*([}\]])/g, ...)`: rewrite a
single-quoted array/object tail element before a closing bracket. -/
def fixSingleQuotedTailF : Nat → List Char → List Char
  | 0, l => l
  | _ + 1, [] => []
  | fuel + 1, c :: rest =>
    if c = ',' then
      match rest.dropWhile isJsWs with
      | q :: qrest =>
        if q.val = 39 then
          match qrest.dropWhile (fun ch => !(ch.val = 39 || ch = '\\')) with
          | e :: r3 =>
            if e.val = 39 then
              match r3.dropWhile isJsWs with
              | b :: r4 =>
                if b = '}' ∨ b = ']' then
                  [',', ' ', '"'] ++
                    escQuotes (qrest.takeWhile (fun ch => !(ch.val = 39 || ch = '\\'))) ++
                    ['"', b] ++ fixSingleQuotedTailF fuel r4
                else ',' :: fixSingleQuotedTailF fuel rest
              | [] => ',' :: fixSingleQuotedTailF fuel rest
            else ',' :: fixSingleQuotedTailF fuel rest
          | [] => ',' :: fixSingleQuotedTailF fuel rest
        else ',' :: fixSingleQuotedTailF fuel rest
      | [] => ',' :: fixSingleQuotedTailF fuel rest
    else c :: fixSingleQuotedTailF fuel rest

def fixSingleQuotedTail (l : List Char) : List Char :=
  fixSingleQuotedTailF l.length l

/-- The chained repair passes applied when strict `JSON.parse` fails, in
source order: trailing commas, Python-style literals, bare keys, then
single-quoted string values. -/
def repairLoose (s : String) : String :=
  let l1 := fixTrailingCommas s.data
  let l2 := fixWordAll "True".data "true".data l1
  let l3 := fixWordAll "False".data "false".data l2
  let l4 := fixWordAll "None".data "null".data l3
  let l5 := fixKeys l4
  let l6 := fixSingleQuoted l5
  let l7 := fixSingleQuotedTail l6
  ⟨l7⟩

/-- `tryParseJsonLoose`: strict parse, then one repaired re-parse.  A JS
`null` return (parse failure) is `none`; a successful strict parse that
yields the JSON value `null` is `some Json.null` and is collapsed back to
the JS `null` by the `parsed == null` test of the caller. -/
def tryParseJsonLoose (input : String) : Option Json :=
  match jsonParse input with
  | some v => some v
  | none => jsonParse (repairLoose input)

/-! ### `stripCodeFences` and `extractJsonObjects` -/

/-- Index (from the end) bookkeeping for `/^\s*json\s*\n/i`: position of
the last LF in a whitespace run, if any. -/
def lastNewlinePos : List Char → Option Nat
  | [] => none
  | c :: rest =>
    match lastNewlinePos rest with
    | some k => some (k + 1)
    | none => if c.val = 10 then some 0 else none

/-- `.replace(/^\s*json\s*\n/i, '')`: strip an optional leading language
tag line.  The greedy `\s*\n` consumes the whitespace run after `json` up
to and including its last LF; with no LF there the pattern does not match. -/
def stripJsonTag (l : List Char) : List Char :=
  match l.dropWhile isJsWs with
  | a :: b :: c :: d :: rest =>
    if jsToLowerChar a = 'j' ∧ jsToLowerChar b = 's' ∧ jsToLowerChar c = 'o' ∧
        jsToLowerChar d = 'n' then
      match lastNewlinePos (rest.takeWhile isJsWs) with
      | some k => rest.drop (k + 1)
      | none => l
    else l
  | _ => l

/-- `stripCodeFences`: prefer the inside of the first fenced block pair,
minus an optional `json` tag line; otherwise the trimmed whole text. -/
def stripCodeFences (text : String) : String :=
  match jsIndexOf text "```" with
  | none => jsTrim text
  | some fenceStart =>
    match seqIndexOf "```".data (text.data.drop (fenceStart + 3)) with
    | none => jsTrim text
    | some rel =>
      jsTrim ⟨stripJsonTag ((text.data.drop (fenceStart + 3)).take rel)⟩

/-- The inner scan of `extractJsonObjects` beginning at one candidate
start: brace depth counted only outside double-quoted strings, with
backslash escapes honoured; returns the length of the candidate when the
depth first returns to zero at a `}`. -/
def braceScan : List Char → Int → Bool → Bool → Nat → Option Nat
  | [], _, _, _, _ => none
  | ch :: rest, depth, inString, escaping, n =>
    if inString then
      if escaping then braceScan rest depth true false (n + 1)
      else if ch = '\\' then braceScan rest depth true true (n + 1)
      else if ch = '"' then braceScan rest depth false false (n + 1)
      else braceScan rest depth true false (n + 1)
    else
      if ch = '"' then braceScan rest depth true false (n + 1)
      else if ch = '{' then braceScan rest (depth + 1) false false (n + 1)
      else if ch = '}' then
        if depth - 1 = 0 then some (n + 1)
        else braceScan rest (depth - 1) false false (n + 1)
      else braceScan rest depth false false (n + 1)

/-- The outer loop of `extractJsonObjects`: every index whose character is
`{` starts a fresh inner scan (the loop advances by one index per
iteration, so nested candidates are reported too). -/
def extractGo : List Char → List String
  | [] => []
  | c :: rest =>
    if c = '{' then
      match braceScan (c :: rest) 0 false false 0 with
      | some len => jsTrim ⟨(c :: rest).take len⟩ :: extractGo rest
      | none => extractGo rest
    else extractGo rest

def extractJsonObjects (text : String) : List String :=
  extractGo text.data

/-! ### The zod schema `modelResponseSchema` and its accessors -/

def isNullableStrField : Option Json → Bool
  | some (.str _) => true
  | some .null => true
  | _ => false

/-- `themes: z.array(z.string()).default([])`: a missing key defaults, a
present key must be an array of strings. -/
def themesFieldOk : Option Json → Bool
  | none => true
  | some (.arr xs) => xs.all (fun v => match v with | .str _ => true | _ => false)
  | _ => false

/-- `modelResponseSchema.safeParse(...).success`: an object with a boolean
`shouldSpeak`, nullable-string `timeRange`, `reflection` and `invitation`,
and a defaulted string-array `themes`; unknown keys are stripped, not
rejected. -/
def modelResponseSchemaCheck (j : Json) : Bool :=
  match j with
  | .obj fs =>
    (match lookupField fs "shouldSpeak" with | some (.bool _) => true | _ => false) &&
    isNullableStrField (lookupField fs "timeRange") &&
    isNullableStrField (lookupField fs "reflection") &&
    themesFieldOk (lookupField fs "themes") &&
    isNullableStrField (lookupField fs "invitation")
  | _ => false

/-- `parsed.data.shouldSpeak` after a successful `safeParse`. -/
def getShouldSpeak (j : Json) : Bool :=
  match j with
  | .obj fs => match lookupField fs "shouldSpeak" with | some (.bool b) => b | _ => false
  | _ => false

/-- `parsed.data.reflection` after a successful `safeParse`. -/
def getReflection (j : Json) : Option String :=
  match j with
  | .obj fs => match lookupField fs "reflection" with | some (.str s) => some s | _ => none
  | _ => none

/-- `parsed.data.timeRange` after a successful `safeParse`. -/
def getTimeRange (j : Json) : Option String :=
  match j with
  | .obj fs => match lookupField fs "timeRange" with | some (.str s) => some s | _ => none
  | _ => none

/-- `parsed.data.themes` after a successful `safeParse` (the `default([])`
makes a missing key the empty list). -/
def getThemes (j : Json) : List String :=
  match j with
  | .obj fs =>
    match lookupField fs "themes" with
    | some (.arr xs) => xs.filterMap (fun v => match v with | .str s => some s | _ => none)
    | _ => []
  | _ => []

/-! ### `parseBestJsonFromModelText` -/

/-- The candidate loop, iterating the reversed candidate list (the source
walks indices from last to first).  `anyParsed` is overwritten by every
parse success, so after a full pass it holds the parse of the lowest
index examined that parsed. -/
def parseBestGo : List String → Option Json → Option Json
  | [], anyParsed => anyParsed
  | c :: rest, anyParsed =>
    if c = "" then parseBestGo rest anyParsed
    else
      match tryParseJsonLoose c with
      | none => parseBestGo rest anyParsed
      | some v =>
        if v = Json.null then parseBestGo rest anyParsed
        else if modelResponseSchemaCheck v then some v
        else parseBestGo rest (some v)

def parseBestJsonFromModelText (text : String) : Option Json :=
  parseBestGo (extractJsonObjects (stripCodeFences text)).reverse none

/-! ### Banned language and `sanitizeOutput` -/

/-- `BANNED_SUBSTRINGS` (verbatim from the source). -/
def BANNED_SUBSTRINGS : List String :=
  ["postpartum depression", "ppd", "depression", "anxiety", "diagnos",
   "you should", "try ", "it might help", "you need to",
   "everything will be okay",
   "you" ++ (Char.ofNat 39).toString ++ "re doing great", "at least",
   "the good news is", "progress", "growth", "resilience"]

def includesBannedLanguage (text : String) : Bool :=
  BANNED_SUBSTRINGS.any (fun s => jsIncludes (jsToLower text) s)

/-- The combined text `[reflection ?? '', ...themes].join('\n')` checked
by `sanitizeOutput`. -/
def combinedReflectionThemes (reflection : Option String) (themes : List String) :
    String :=
  String.intercalate "\n" (reflection.getD "" :: themes)

/-- `sanitizeOutput` keeps the input unchanged and only decides pass/fail,
so it is modelled by its `ok` flag: blank combined text passes, banned
language fails, anything else passes. -/
def sanitizeOutputOk (reflection : Option String) (themes : List String) : Bool :=
  let combined := combinedReflectionThemes reflection themes
  if jsTrim combined = "" then true
  else !includesBannedLanguage combined

/-! ### Calendar dates: `parseIsoDate` and `computeSpanDays` -/

/-- One journal entry as consumed by the engine
(`JournalPatternInputEntry`). -/
structure Entry where
  entryDate : String
  body : String
  prompt1 : String
  prompt2 : String
  p1Answer : String
  p2Answer : String
  ventEntry : Bool
deriving DecidableEq

/-- `/^(\d{4})-(\d{2})-(\d{2})$/` on the date string. -/
def parseIsoDate (iso : String) : Option (Nat × Nat × Nat) :=
  match iso.data with
  | [y1, y2, y3, y4, h1, m1, m2, h2, d1, d2] =>
    if isDigitChar y1 ∧ isDigitChar y2 ∧ isDigitChar y3 ∧ isDigitChar y4 ∧
        h1 = '-' ∧ isDigitChar m1 ∧ isDigitChar m2 ∧ h2 = '-' ∧
        isDigitChar d1 ∧ isDigitChar d2 then
      some (digitsToNat [y1, y2, y3, y4], digitsToNat [m1, m2], digitsToNat [d1, d2])
    else none
  | _ => none

/-- Days from the epoch for year/month(1-12)/day 1 (proleptic Gregorian,
the civil-days computation performed by `Date.UTC`). -/
def daysFromCivil (y m d : Int) : Int :=
  let y2 := if m ≤ 2 then y - 1 else y
  let era := y2.fdiv 400
  let yoe := y2 - era * 400
  let mp := (m + 9).emod 12
  let doy := (153 * mp + 2).fdiv 5 + (d - 1)
  let doe := yoe * 365 + yoe.fdiv 4 - yoe.fdiv 100 + doy
  era * 146097 + doe - 719468

/-- `Date.UTC(y, m0, d)` in whole days: the two-digit-year 1900 shift,
then month overflow normalisation, then the civil-day count. -/
def dateUtcDays (y m0 d : Int) : Int :=
  let yr := if 0 ≤ y ∧ y ≤ 99 then y + 1900 else y
  let ym := yr + m0.fdiv 12
  let mn := m0.emod 12
  daysFromCivil ym (mn + 1) d

/-- `getTime()` of `new Date(Date.UTC(y, mo - 1, d))` in milliseconds. -/
def dateUtcMs (y mo d : Nat) : Int :=
  dateUtcDays (Int.ofNat y) (Int.ofNat mo - 1) (Int.ofNat d) * 86400000

/-- `computeSpanDays`: whole days between the first and last entry's
dates (`!first`/`!last` is JS falsiness, so an empty date string also
yields null). -/
def computeSpanDays (entries : List Entry) : Option Int :=
  match entries.head?, entries.getLast? with
  | some e0, some e1 =>
    if e0.entryDate = "" ∨ e1.entryDate = "" then none
    else
      match parseIsoDate e0.entryDate, parseIsoDate e1.entryDate with
      | some (y1, mo1, d1), some (y2, mo2, d2) =>
        some ((dateUtcMs y2 mo2 d2 - dateUtcMs y1 mo1 d1).fdiv 86400000)
      | _, _ => none
  | _, _ => none

/-- `describeTimeRange`. -/
def describeTimeRange (spanDays : Option Int) : String :=
  match spanDays with
  | none => "over the past week"
  | some s =>
    if 20 ≤ s then "over the past few weeks"
    else if 13 ≤ s then "over the past two weeks"
    else "over the past week"

/-- `shouldAttemptLongitudinalAnalysis`: at least 4 non-vent entries whose
date span is at least 6 days. -/
def shouldAttemptLongitudinalAnalysis (entries : List Entry) : Bool :=
  let nonVent := entries.filter (fun e => !e.ventEntry)
  if nonVent.length < 4 then false
  else
    match computeSpanDays nonVent with
    | none => false
    | some spanDays => !(spanDays < 6)

/-! ### `compactEntryText` and `selectEntriesForModel` -/

/-- `compactEntryText`: the non-blank parts joined by LF, truncated at 900
characters with a `…` suffix. -/
def compactEntryText (e : Entry) : String :=
  let parts := [jsTrim e.body,
    if jsTrim e.prompt1 ≠ "" then "P1: " ++ jsTrim e.prompt1 else "",
    if jsTrim e.p1Answer ≠ "" then "A1: " ++ jsTrim e.p1Answer else "",
    if jsTrim e.prompt2 ≠ "" then "P2: " ++ jsTrim e.prompt2 else "",
    if jsTrim e.p2Answer ≠ "" then "A2: " ++ jsTrim e.p2Answer else ""]
  let combined := String.intercalate "\n" (parts.filter (fun p => p ≠ ""))
  if 900 < combined.length then jsTake combined 900 ++ "…" else combined

/-- The per-entry field truncation applied before cost accounting. -/
def boundEntry (e : Entry) : Entry :=
  { entryDate := e.entryDate, body := jsTake e.body 500,
    prompt1 := jsTake e.prompt1 140, prompt2 := jsTake e.prompt2 140,
    p1Answer := jsTake e.p1Answer 260, p2Answer := jsTake e.p2Answer 260,
    ventEntry := e.ventEntry }

/-- The selection loop of `selectEntriesForModel`: stop at 30 entries, or
when a further entry would push the running character budget past 8000
(the first entry is always admitted). -/
def pickEntriesGo : List Entry → List Entry → Nat → List Entry
  | [], picked, _ => picked
  | e :: rest, picked, usedChars =>
    if 30 ≤ picked.length then picked
    else
      let bounded := boundEntry e
      let cost := 40 + (compactEntryText bounded).length
      if 0 < picked.length ∧ 8000 < usedChars + cost then picked
      else pickEntriesGo rest (picked ++ [bounded]) (usedChars + cost)

/-- `selectEntriesForModel`: newest-first non-vent entries, then up to 6
newest vent entries, budget-picked, then the picked list reversed. -/
def selectEntriesForModel (entries : List Entry) : List Entry :=
  let nonVent := entries.filter (fun e => !e.ventEntry)
  let vent := entries.filter (fun e => e.ventEntry)
  let candidatesNewestFirst := nonVent.reverse ++ (vent.reverse.take 6)
  (pickEntriesGo candidatesNewestFirst [] 0).reverse

/-! ### `generateJournalPatterns`

The provider interaction (`resolveModelName` + `runOnce`) is a network
effect; it is abstracted as a `ModelAttempt` oracle carried by
`ModelEnv`, and the returned flag records whether the pipeline reached
the provider call at all.  `streamedText`/`aggregatedText` reconciliation
happens inside `runOnce`, so the oracle's `text` is its result. -/

/-- The debug block attached to a result value when `debug` is on
(the always-`undefined` `retry` field is omitted). -/
structure DebugInfo where
  attempted : Bool
  reason : String
  entriesCount : Nat
  spanDays : Option Int
  modelName : Option String
  finishReason : Option String
  outputLength : Option Nat
  outputPreview : Option String
  errorStatus : Option Int
  errorMessage : Option String
  retryAfterSeconds : Option Int
deriving DecidableEq

/-- The success payload of `JournalPatternsResult`. -/
structure PatternValue where
  shouldSpeak : Bool
  reflection : Option String
  themes : List String
  invitation : Option String
  timeRange : Option String
  debugInfo : Option DebugInfo
deriving DecidableEq

inductive JournalPatternsResult where
  | ok (value : PatternValue)
  | error (message : String)
deriving DecidableEq

/-- Outcome of the single `runOnce(resolvedModelName)` provider call. -/
inductive ModelAttempt where
  | ok (modelName : String) (text : String) (finishReason : Option String)
  | err (modelName : String) (errorStatus : Option Int) (errorMessage : String)
      (retryAfterSeconds : Option Int)
deriving DecidableEq

/-- The ambient configuration and provider oracle for one call. -/
structure ModelEnv where
  hasApiKey : Bool
  attempt : ModelAttempt
deriving DecidableEq

/-- Code-point lexicographic comparison, the model of
`localeCompare` on `YYYY-MM-DD` strings (where collation and code-point
order agree). -/
def charListLt : List Char → List Char → Bool
  | [], [] => false
  | [], _ :: _ => true
  | _ :: _, [] => false
  | a :: as, b :: bs =>
    if a.val < b.val then true
    else if b.val < a.val then false
    else charListLt as bs

def strLt (a b : String) : Bool :=
  charListLt a.data b.data

/-- Stable insertion of an entry into a date-sorted list: a new entry goes
after existing entries with the same date, as a stable comparator sort
does. -/
def insertSortedByDate (a : Entry) : List Entry → List Entry
  | [] => [a]
  | b :: bs =>
    if strLt a.entryDate b.entryDate then a :: b :: bs else b :: insertSortedByDate a bs

/-- `entriesAll.slice().sort((a, b) => a.entryDate.localeCompare(b.entryDate))`,
modelled as a stable sort under code-point comparison (the two coincide on
`YYYY-MM-DD` digit strings). -/
def sortEntries (l : List Entry) : List Entry :=
  l.foldl (fun acc e => insertSortedByDate e acc) []

/-- The all-null non-speaking success payload. -/
def silentValue (d : Option DebugInfo) : PatternValue :=
  { shouldSpeak := false, reflection := none, themes := [], invitation := none,
    timeRange := none, debugInfo := d }

/-- Debug payload of a gate rejection. -/
def gateDebug (reason : String) (entriesCount : Nat) (spanDays : Option Int) :
    DebugInfo :=
  { attempted := false, reason := reason, entriesCount := entriesCount,
    spanDays := spanDays, modelName := none, finishReason := none,
    outputLength := none, outputPreview := none, errorStatus := none,
    errorMessage := none, retryAfterSeconds := none }

/-- Debug payload of a failed provider attempt. -/
def attemptErrDebug (reason : String) (entriesCount : Nat) (spanDays : Option Int)
    (modelName : String) (errorStatus : Option Int) (errorMessage : String)
    (retryAfterSeconds : Option Int) : DebugInfo :=
  { attempted := true, reason := reason, entriesCount := entriesCount,
    spanDays := spanDays, modelName := some modelName, finishReason := none,
    outputLength := none, outputPreview := none, errorStatus := errorStatus,
    errorMessage := some errorMessage, retryAfterSeconds := retryAfterSeconds }

/-- Debug payload of a branch taken after provider text came back. -/
def outputDebug (reason : String) (entriesCount : Nat) (spanDays : Option Int)
    (modelName : String) (finishReason : Option String) (text : String) : DebugInfo :=
  { attempted := true, reason := reason, entriesCount := entriesCount,
    spanDays := spanDays, modelName := some modelName, finishReason := finishReason,
    outputLength := some text.length,
    outputPreview := some (jsTake (stripCodeFences text) 600), errorStatus := none,
    errorMessage := none, retryAfterSeconds := none }

/-- `generateJournalPatterns`.  Returns the result together with a flag
recording whether the provider call (`runOnce`) was made.  The outer
`try`/`catch` of the source only converts a thrown exception into an
`error` result; nothing in this pure model throws. -/
def generateJournalPatterns (env : ModelEnv) (entriesAll : List Entry)
    (debug : Bool) : JournalPatternsResult × Bool :=
  let entries := sortEntries entriesAll
  if !shouldAttemptLongitudinalAnalysis entries then
    let nonVent := entries.filter (fun e => !e.ventEntry)
    let spanDays := computeSpanDays nonVent
    (.ok (silentValue (if debug then
      some (gateDebug
        (if nonVent.length < 4 then "not_enough_entries" else "not_enough_span")
        nonVent.length spanDays)
      else none)), false)
  else if !env.hasApiKey then
    (.error "Gemini is not configured.", false)
  else
    let nonVent := entries.filter (fun e => !e.ventEntry)
    let spanDays := computeSpanDays nonVent
    match env.attempt with
    | .err modelName errorStatus errorMessage retryAfterSeconds =>
      (.ok (silentValue (if debug then
        some (attemptErrDebug
          (if errorStatus = some 429 then "rate_limited" else "model_error")
          nonVent.length spanDays modelName errorStatus errorMessage
          retryAfterSeconds)
        else none)), true)
    | .ok modelName text finishReason =>
      match parseBestJsonFromModelText text with
      | none =>
        (.ok (silentValue (if debug then
          some (outputDebug "invalid_json" nonVent.length spanDays modelName
            finishReason text)
          else none)), true)
      | some parsedJson =>
        if !modelResponseSchemaCheck parsedJson then
          (.ok (silentValue (if debug then
            some (outputDebug "invalid_shape" nonVent.length spanDays modelName
              finishReason text)
            else none)), true)
        else if !sanitizeOutputOk (getReflection parsedJson) (getThemes parsedJson) then
          let timeRange := describeTimeRange spanDays
          (.ok { shouldSpeak := true, timeRange := some timeRange,
                 reflection := some (timeRange ++
                   ", I’m noticing some repeating threads, but I can’t put them into words cleanly right now."),
                 themes := [], invitation := none,
                 debugInfo := if debug then
                     some (outputDebug "banned_language" nonVent.length spanDays
                       modelName finishReason text)
                   else none }, true)
        else if !getShouldSpeak parsedJson then
          let timeRange := describeTimeRange spanDays
          (.ok { shouldSpeak := true, timeRange := some timeRange,
                 reflection := some (timeRange ++
                   ", I’m not seeing a clear repeating pattern yet."),
                 themes := [], invitation := none,
                 debugInfo := if debug then
                     some (outputDebug "model_silence" nonVent.length spanDays
                       modelName finishReason text)
                   else none }, true)
        else
          let reflection := jsTrim ((getReflection parsedJson).getD "")
          if reflection = "" then
            (.ok (silentValue (if debug then
              some (outputDebug "empty_reflection" nonVent.length spanDays modelName
                finishReason text)
              else none)), true)
          else
            (.ok { shouldSpeak := true, reflection := some reflection,
                   themes := ((getThemes parsedJson).map jsTrim).filter (fun t => t ≠ ""),
                   invitation := none,
                   timeRange := (match getTimeRange parsedJson with
                     | some s => if jsTrim s = "" then none else some (jsTrim s)
                     | none => none),
                   debugInfo := if debug then
                       some (outputDebug "spoke" nonVent.length spanDays
                         modelName finishReason text)
                     else none }, true)

/-! ### The route handler `GET` and its per-user result cache

Authentication and the database query are external collaborators; the
model starts from the row list the query returned (newest first, as the
descending `entry_date` ordering delivers it) for an authenticated user.
`Date.now()` is modelled as one `now` per request. -/

/-- One row of the `journal_entries` query (`DbJournalRow`). -/
structure DbRow where
  entry_date : String
  body : String
  vent_entry : Option Bool
  prompt_1 : Option String
  prompt_2 : Option String
  p1_answer : Option String
  p2_answer : Option String
deriving DecidableEq

/-- One slot of `patternsCacheByUser` (`CachedPatterns`). -/
structure CachedPatterns where
  atMs : Int
  fingerprint : String
  value : PatternValue
deriving DecidableEq

def CACHE_TTL_MS : Int := 5 * 60 * 1000

abbrev CacheMap : Type := List (String × CachedPatterns)

def cacheGet (m : CacheMap) (k : String) : Option CachedPatterns :=
  match m with
  | [] => none
  | (k2, v) :: rest => if k2 = k then some v else cacheGet rest k

/-- `Map.set`: update an existing key in place, else append. -/
def cacheSet (m : CacheMap) (k : String) (v : CachedPatterns) : CacheMap :=
  match m with
  | [] => [(k, v)]
  | (k2, v2) :: rest =>
    if k2 = k then (k2, v) :: rest else (k2, v2) :: cacheSet rest k v

/-- `stableHash`: the djb2-style loop `h = (h * 33) ^ code` on signed
32-bit values, read back as unsigned; XOR on the two's-complement bit
pattern equals XOR on the value mod 2^32, so the whole loop is carried
in `Nat` mod 2^32.  Code points stand in for UTF-16 units (equal on BMP
text). -/
def stableHash (input : String) : String :=
  natToHex (input.data.foldl (fun h c => ((h * 33) % 4294967296) ^^^ c.toNat) 5381)

/-- `computeEntriesFingerprint`: count, newest date and a 120-character
sample of the newest body. -/
def computeEntriesFingerprint (rows : List DbRow) : String :=
  let newestDate := (rows.head?.map (fun r => r.entry_date)).getD ""
  let newestBody := (rows.head?.map (fun r => r.body)).getD ""
  stableHash (toString rows.length ++ "|" ++ newestDate ++ "|" ++ jsTake newestBody 120)

/-- `isEmptySilence`: a non-speaking value with null reflection,
invitation and timeRange and no themes. -/
def isEmptySilence (v : PatternValue) : Bool :=
  !v.shouldSpeak && v.reflection.isNone && v.invitation.isNone &&
  v.timeRange.isNone && v.themes.isEmpty

/-- The `debugMeta` block of a debug-mode response. -/
structure DebugMeta where
  totalCount : Nat
  ventCount : Nat
  nonVentCount : Nat
deriving DecidableEq

/-- The `cacheMeta` block of a debug-mode cache-served response. -/
structure CacheMeta where
  servedFromCache : Bool
  ageSeconds : Int
  entriesFingerprint : Option String
deriving DecidableEq

/-- A handler response: a JSON payload (the pattern value, spread
together with optional `debugMeta`/`cacheMeta` siblings) or an HTTP
error with a status. -/
inductive GetResponse where
  | json (value : PatternValue) (debugMeta : Option DebugMeta)
      (cacheMeta : Option CacheMeta)
  | httpError (message : String) (status : Nat)
deriving DecidableEq

/-- Per-request inputs of the handler. -/
structure GetRequest where
  userId : String
  rows : List DbRow
  debug : Bool
  refresh : Bool
  now : Int
deriving DecidableEq

/-- The `entriesAll` row mapping (`??` defaults) of the handler. -/
def rowToEntry (r : DbRow) : Entry :=
  { entryDate := r.entry_date, body := r.body, prompt1 := r.prompt_1.getD "",
    prompt2 := r.prompt_2.getD "", p1Answer := r.p1_answer.getD "",
    p2Answer := r.p2_answer.getD "", ventEntry := r.vent_entry.getD false }

/-- The route handler: fast cache path, generation, empty-silence
fallback to a recent cached value, cache write, response.  Returns the
response, the cache after the request, and whether the provider was
called. -/
def handleGET (menv : ModelEnv) (cache : CacheMap) (req : GetRequest) :
    GetResponse × CacheMap × Bool :=
  let rows := req.rows
  let totalCount := rows.length
  let ventCount := (rows.filter (fun r => r.vent_entry.getD false)).length
  let nonVentCount := totalCount - ventCount
  let fingerprint := computeEntriesFingerprint rows
  let fastPath : Option GetResponse :=
    if req.refresh then none
    else
      match cacheGet cache req.userId with
      | none => none
      | some cached =>
        let ageMs := req.now - cached.atMs
        if cached.fingerprint = fingerprint ∧ 0 ≤ ageMs ∧ ageMs ≤ CACHE_TTL_MS then
          some (if req.debug then
              GetResponse.json cached.value
                (some { totalCount := totalCount, ventCount := ventCount,
                        nonVentCount := nonVentCount })
                (some { servedFromCache := true, ageSeconds := ageMs.fdiv 1000,
                        entriesFingerprint := some fingerprint })
            else GetResponse.json cached.value none none)
        else none
  match fastPath with
  | some resp => (resp, cache, false)
  | none =>
    let entriesAll := (rows.map rowToEntry).reverse
    match generateJournalPatterns menv entriesAll req.debug with
    | (.error message, called) =>
      (.httpError message (if message = "Gemini is not configured." then 503 else 500),
        cache, called)
    | (.ok value, called) =>
      let fallback : Option GetResponse :=
        if isEmptySilence value then
          match cacheGet cache req.userId with
          | none => none
          | some cached =>
            let ageMs := req.now - cached.atMs
            if 0 ≤ ageMs ∧ ageMs ≤ CACHE_TTL_MS then
              some (if req.debug then
                  GetResponse.json cached.value
                    (some { totalCount := totalCount, ventCount := ventCount,
                            nonVentCount := nonVentCount })
                    (some { servedFromCache := true, ageSeconds := ageMs.fdiv 1000,
                            entriesFingerprint := none })
                else GetResponse.json cached.value none none)
            else none
        else none
      match fallback with
      | some resp => (resp, cache, called)
      | none =>
        let cache2 := cacheSet cache req.userId
          { atMs := req.now, fingerprint := fingerprint, value := value }
        if req.debug then
          (GetResponse.json value
            (some { totalCount := totalCount, ventCount := ventCount,
                    nonVentCount := nonVentCount }) none, cache2, called)
        else (GetResponse.json value none none, cache2, called)

/-! ### Helper lemmas -/

theorem insertSortedByDate_perm (a : Entry) (l : List Entry) :
    List.Perm (insertSortedByDate a l) (a :: l) := by
  induction l with
  | nil => simp [insertSortedByDate]
  | cons b bs ih =>
    unfold insertSortedByDate
    by_cases h : strLt a.entryDate b.entryDate = true
    · simp [h]
    · simp only [h, if_false, Bool.false_eq_true]
      exact (ih.cons b).trans (List.Perm.swap a b bs)

theorem sortEntries_fold_perm : ∀ (l acc : List Entry),
    List.Perm (l.foldl (fun acc e => insertSortedByDate e acc) acc) (l ++ acc)
  | [], acc => by simp
  | x :: xs, acc => by
    simp only [List.foldl_cons]
    have h1 := sortEntries_fold_perm xs (insertSortedByDate x acc)
    have h2 : List.Perm (xs ++ insertSortedByDate x acc) (xs ++ (x :: acc)) :=
      List.Perm.append_left xs (insertSortedByDate_perm x acc)
    exact h1.trans (h2.trans List.perm_middle)

theorem sortEntries_perm (l : List Entry) : List.Perm (sortEntries l) l := by
  have h := sortEntries_fold_perm l []
  simpa [sortEntries] using h

theorem sortEntries_filter_length (l : List Entry) (p : Entry → Bool) :
    ((sortEntries l).filter p).length = (l.filter p).length :=
  ((sortEntries_perm l).filter p).length_eq

theorem containsSeq_subset {pat l : List Char} (h : containsSeq pat l = true) :
    ∀ c ∈ pat, c ∈ l := by
  induction l with
  | nil =>
    simp only [containsSeq, decide_eq_true_eq] at h
    subst h
    intro c hc
    cases hc
  | cons c rest ih =>
    simp only [containsSeq, Bool.or_eq_true] at h
    rcases h with h | h
    · simp only [startsWithSeq, decide_eq_true_eq] at h
      intro x hx
      rw [h] at hx
      exact List.take_subset _ _ hx
    · intro x hx
      exact List.mem_cons_of_mem c (ih h x hx)

theorem dropWhile_all {p : Char → Bool} :
    ∀ {l : List Char}, (∀ a ∈ l.dropWhile p, p a = true) → ∀ a ∈ l, p a = true := by
  intro l
  induction l with
  | nil => intro _ a ha; cases ha
  | cons c rest ih =>
    intro h a ha
    by_cases hc : p c = true
    · rw [List.dropWhile_cons, if_pos hc] at h
      rcases List.mem_cons.mp ha with rfl | ha2
      · exact hc
      · exact ih h a ha2
    · rw [List.dropWhile_cons, if_neg hc] at h
      exact h a ha

theorem allWs_of_trimList_nil {l : List Char} (h : trimList l = []) :
    ∀ c ∈ l, isJsWs c = true := by
  unfold trimList at h
  have h1 : (l.dropWhile isJsWs).reverse.dropWhile isJsWs = [] :=
    List.reverse_eq_nil_iff.mp h
  rw [List.dropWhile_eq_nil_iff] at h1
  have h2 : ∀ a ∈ l.dropWhile isJsWs, isJsWs a = true := by
    intro a ha
    simpa using h1 a (List.mem_reverse.mpr ha)
  exact dropWhile_all h2

theorem isJsWs_jsToLowerChar (c : Char) : isJsWs (jsToLowerChar c) = isJsWs c := by
  unfold jsToLowerChar
  split <;> rfl

theorem banned_has_nonWs :
    ∀ b ∈ BANNED_SUBSTRINGS, ∃ ch ∈ b.data, isJsWs ch = false := by decide

/-- Text containing a banned substring cannot be whitespace-only, so the
blank-combined-text early exit of `sanitizeOutput` never fires on it. -/
theorem jsTrim_ne_empty_of_banned {s : String}
    (h : includesBannedLanguage s = true) : jsTrim s ≠ "" := by
  intro hcontra
  have htl : trimList s.data = [] := by
    have hd := congrArg String.data hcontra
    simpa [jsTrim] using hd
  have hallWs := allWs_of_trimList_nil htl
  unfold includesBannedLanguage at h
  rw [List.any_eq_true] at h
  obtain ⟨b, hb, hcb⟩ := h
  obtain ⟨ch, hchb, hchw⟩ := banned_has_nonWs b hb
  unfold jsIncludes at hcb
  have hmem : ch ∈ (jsToLower s).data := containsSeq_subset hcb ch hchb
  have hmem2 : ch ∈ s.data.map jsToLowerChar := hmem
  obtain ⟨c0, hc0, hc0e⟩ := List.mem_map.mp hmem2
  have hw : isJsWs ch = true := by
    rw [← hc0e, isJsWs_jsToLowerChar]
    exact hallWs c0 hc0
  rw [hw] at hchw
  cases hchw

/-! ### Characterizations of the candidate loop and the extractor -/

/-- A candidate's contribution as the loop sees it: `none` when it is
empty, fails both parses, or parses to the JSON value `null` (all three
are skipped by `parsed == null`); otherwise its parsed value. -/
def parsedNonNull (c : String) : Option Json :=
  if c = "" then none
  else
    match tryParseJsonLoose c with
    | some v => if v = Json.null then none else some v
    | none => none

/-- First candidate (in the given order) that parses and matches the
schema. -/
def firstSchemaParse : List String → Option Json
  | [] => none
  | c :: rest =>
    match parsedNonNull c with
    | some v => if modelResponseSchemaCheck v then some v else firstSchemaParse rest
    | none => firstSchemaParse rest

/-- Parsed value of the last candidate (in the given order) that parses. -/
def lastParse : List String → Option Json
  | [] => none
  | c :: rest =>
    match lastParse rest with
    | some v => some v
    | none => parsedNonNull c

/-- Parsed value of the first candidate (in the given order) that parses. -/
def firstParse : List String → Option Json
  | [] => none
  | c :: rest =>
    match parsedNonNull c with
    | some v => some v
    | none => firstParse rest

theorem parseBestGo_characterization : ∀ (l : List String) (anyParsed : Option Json),
    parseBestGo l anyParsed =
      (match firstSchemaParse l with
       | some v => some v
       | none =>
         match lastParse l with
         | some v => some v
         | none => anyParsed)
  | [], anyParsed => by simp [parseBestGo, firstSchemaParse, lastParse]
  | c :: rest, anyParsed => by
    have ih := parseBestGo_characterization rest
    by_cases hc : c = ""
    · have hp : parsedNonNull c = none := by simp [parsedNonNull, hc]
      simp only [parseBestGo, if_pos hc, ih, firstSchemaParse, lastParse, hp]
      cases hf : firstSchemaParse rest <;> cases hl : lastParse rest <;> simp
    · simp only [parseBestGo, if_neg hc]
      cases hq : tryParseJsonLoose c with
      | none =>
        have hp : parsedNonNull c = none := by simp [parsedNonNull, hc, hq]
        simp only [ih, firstSchemaParse, lastParse, hp]
        cases hf : firstSchemaParse rest <;> cases hl : lastParse rest <;> simp
      | some v =>
        by_cases hv : v = Json.null
        · have hp : parsedNonNull c = none := by simp [parsedNonNull, hc, hq, hv]
          simp only [if_pos hv, ih, firstSchemaParse, lastParse, hp]
          cases hf : firstSchemaParse rest <;> cases hl : lastParse rest <;> simp
        · by_cases hs : modelResponseSchemaCheck v = true
          · have hp : parsedNonNull c = some v := by simp [parsedNonNull, hc, hq, hv]
            simp [if_neg hv, hs, firstSchemaParse, hp]
          · have hp : parsedNonNull c = some v := by simp [parsedNonNull, hc, hq, hv]
            have hs2 : modelResponseSchemaCheck v = false := by
              revert hs; cases modelResponseSchemaCheck v <;> simp
            simp only [if_neg hv, hs2, Bool.false_eq_true, if_false, ih,
              firstSchemaParse, lastParse, hp]
            cases hf : firstSchemaParse rest <;> cases hl : lastParse rest <;> simp

theorem lastParse_append_singleton (xs : List String) (c : String) :
    lastParse (xs ++ [c]) =
      (match parsedNonNull c with
       | some v => some v
       | none => lastParse xs) := by
  induction xs with
  | nil =>
    simp only [List.nil_append, lastParse]
    cases parsedNonNull c <;> simp
  | cons x xs ih =>
    simp only [List.cons_append, lastParse, List.append_eq]
    rw [ih]
    cases hc : parsedNonNull c <;> cases hl : lastParse xs <;> simp

theorem lastParse_reverse (l : List String) : lastParse l.reverse = firstParse l := by
  induction l with
  | nil => rfl
  | cons c rest ih =>
    simp only [List.reverse_cons, lastParse_append_singleton, ih, firstParse]

/-- The candidate reported for one scan position, per the amended reading
of the extractor: any position holding `{` starts a fresh string-aware
scan. -/
def braceCandidateAt (l : List Char) : Option String :=
  match l with
  | c :: rest =>
    if c = '{' then
      match braceScan (c :: rest) 0 false false 0 with
      | some len => some (jsTrim ⟨(c :: rest).take len⟩)
      | none => none
    else none
  | [] => none

/-- All brace candidates over all start positions, in position order. -/
def allBraceCandidates (text : String) : List String :=
  (List.range text.data.length).filterMap (fun i => braceCandidateAt (text.data.drop i))

theorem extractGo_characterization (l : List Char) :
    extractGo l = (List.range l.length).filterMap (fun i => braceCandidateAt (l.drop i)) := by
  induction l with
  | nil => simp [extractGo]
  | cons c rest ih =>
    rw [List.length_cons, List.range_succ_eq_map, List.filterMap_cons, List.filterMap_map]
    have hcomp : ((fun i => braceCandidateAt ((c :: rest).drop i)) ∘ Nat.succ) =
        fun i => braceCandidateAt (rest.drop i) := by
      funext i
      simp [List.drop_succ_cons]
    rw [hcomp, ← ih]
    simp only [List.drop_zero]
    have hgo : extractGo (c :: rest) =
        (if c = '{' then
          (match braceScan (c :: rest) 0 false false 0 with
           | some len => jsTrim ⟨(c :: rest).take len⟩ :: extractGo rest
           | none => extractGo rest)
         else extractGo rest) := rfl
    rw [hgo]
    simp only [braceCandidateAt]
    by_cases hc : c = '{'
    · simp only [if_pos hc]
      cases hb : braceScan (c :: rest) 0 false false 0 <;> simp [hb]
    · simp [hc]

/-! ### Concrete fixtures used by witnesses and counterexamples -/

def mkPlainEntry (d b : String) : Entry :=
  { entryDate := d, body := b, prompt1 := "", prompt2 := "", p1Answer := "",
    p2Answer := "", ventEntry := false }

def mkVentEntry (d b : String) : Entry :=
  { entryDate := d, body := b, prompt1 := "", prompt2 := "", p1Answer := "",
    p2Answer := "", ventEntry := true }

/-- Four non-vent entries spanning 7 days: the gate admits them. -/
def entriesSpan7 : List Entry :=
  [mkPlainEntry "2024-01-01" "a", mkPlainEntry "2024-01-03" "b",
   mkPlainEntry "2024-01-05" "c", mkPlainEntry "2024-01-08" "d"]

/-- Three non-vent entries: below the gate's count threshold. -/
def entriesThree : List Entry :=
  [mkPlainEntry "2024-01-01" "a", mkPlainEntry "2024-01-03" "b",
   mkPlainEntry "2024-01-05" "c"]

/-- An environment whose provider oracle is never consulted. -/
def menvAny : ModelEnv :=
  { hasApiKey := false, attempt := .err "models/m" none "unused" none }

/-- A model reply whose `timeRange` is the JSON `null`. -/
def textNullTimeRange : String :=
  "\x7b\"shouldSpeak\":true,\"timeRange\":null,\"reflection\":\"Lately the same thread keeps returning.\",\"themes\":[],\"invitation\":null\x7d"

def envNullTimeRange : ModelEnv :=
  { hasApiKey := true, attempt := .ok "models/m" textNullTimeRange none }

def valNullTimeRange : PatternValue :=
  { shouldSpeak := true, reflection := some "Lately the same thread keeps returning.",
    themes := [], invitation := none, timeRange := none, debugInfo := none }

/-! ### C1 -/

/-- C1: with fewer than 4 non-vent entries the engine returns a
successful non-speaking value, records `not_enough_entries` when debug is
requested, and never reaches the provider call (second component
`false`). -/
theorem C1_gate_not_enough_entries (env : ModelEnv) (entriesAll : List Entry)
    (debug : Bool)
    (h : (entriesAll.filter (fun e => !e.ventEntry)).length < 4) :
    generateJournalPatterns env entriesAll debug =
      (.ok (silentValue (if debug then
          some (gateDebug "not_enough_entries"
            ((sortEntries entriesAll).filter (fun e => !e.ventEntry)).length
            (computeSpanDays ((sortEntries entriesAll).filter (fun e => !e.ventEntry))))
        else none)), false) := by
  have h4 : ((sortEntries entriesAll).filter (fun e => !e.ventEntry)).length < 4 := by
    rw [sortEntries_filter_length]
    exact h
  have hgate : shouldAttemptLongitudinalAnalysis (sortEntries entriesAll) = false := by
    unfold shouldAttemptLongitudinalAnalysis
    simp only [if_pos h4]
  simp only [generateJournalPatterns, hgate, h4, Bool.not_false, if_true, if_pos]

/-- C1 witness: the theorem applied to three concrete non-vent entries in
debug mode. -/
theorem C1_witness :
    generateJournalPatterns menvAny entriesThree true =
      (.ok (silentValue (some (gateDebug "not_enough_entries" 3 (some 4)))), false) :=
  (C1_gate_not_enough_entries menvAny entriesThree true (by decide)).trans (by decide)

/-! ### C2 -/

def reqSilent : GetRequest :=
  { userId := "u1", rows := [], debug := false, refresh := false, now := 0 }

/-- C2 (code bug): a silent/empty outcome, produced here by the gate on an
empty entry set with no usable prior cache entry, IS written into the
per-user cache by the unconditional `patternsCacheByUser.set` of the
handler, although the source's own comment says silent outcomes must not
overwrite the cache. -/
theorem C2_silent_outcome_cached :
    handleGET menvAny [] reqSilent =
      (GetResponse.json (silentValue none) none none,
       [("u1", { atMs := 0, fingerprint := computeEntriesFingerprint [],
                 value := silentValue none })], false) ∧
    isEmptySilence (silentValue none) = true := by decide

/-! ### C3 -/

set_option maxRecDepth 8000 in
/-- C3 counterexample: a schema-valid reply with `shouldSpeak:true` and
`timeRange:null` flows through the spoke branch unchanged, so the
returned value has `shouldSpeak = true` with `timeRange = null`,
refuting "shouldSpeak=true implies timeRange non-null". -/
theorem C3_counterexample :
    (generateJournalPatterns envNullTimeRange entriesSpan7 false).1 =
      .ok valNullTimeRange ∧
    valNullTimeRange.shouldSpeak = true ∧ valNullTimeRange.timeRange = none ∧
    valNullTimeRange.reflection ≠ none := by decide

/-- C3 (amended): every successful value has a null invitation, and its
reflection and timeRange are both null exactly when `shouldSpeak` is
false; when `shouldSpeak` is true the reflection is non-null but the
timeRange may still be null. -/
theorem C3_amended (env : ModelEnv) (entriesAll : List Entry) (debug : Bool)
    (v : PatternValue) (called : Bool)
    (h : generateJournalPatterns env entriesAll debug = (.ok v, called)) :
    v.invitation = none ∧
    (v.shouldSpeak = false ↔ (v.reflection = none ∧ v.timeRange = none)) ∧
    (v.shouldSpeak = true → v.reflection ≠ none) := by
  have hv : (generateJournalPatterns env entriesAll debug).1 = .ok v := by rw [h]
  clear h
  simp only [generateJournalPatterns] at hv
  repeat' split at hv
  all_goals
    first
      | · obtain rfl : _ = v := by simpa using hv
          simp [silentValue]
      | exact absurd hv (by simp)

/-- C3 amended witness: the amended invariant at the empty entry list. -/
theorem C3_amended_witness :
    (silentValue none).invitation = none ∧
    ((silentValue none).shouldSpeak = false ↔
      ((silentValue none).reflection = none ∧ (silentValue none).timeRange = none)) ∧
    ((silentValue none).shouldSpeak = true → (silentValue none).reflection ≠ none) :=
  C3_amended menvAny [] false (silentValue none) false (by decide)

/-! ### C4 -/

/-- C4: on a non-refresh request with a cached entry whose fingerprint
matches the current snapshot and whose age is within the 5-minute TTL,
the handler serves the cached value (verbatim as the whole payload in
non-debug mode, with metadata siblings in debug mode), leaves the cache
unchanged, and never calls the provider. -/
theorem C4_cache_fast_path (menv : ModelEnv) (cache : CacheMap) (req : GetRequest)
    (cached : CachedPatterns)
    (h1 : req.refresh = false)
    (h2 : cacheGet cache req.userId = some cached)
    (h3 : cached.fingerprint = computeEntriesFingerprint req.rows)
    (h4 : 0 ≤ req.now - cached.atMs)
    (h5 : req.now - cached.atMs ≤ CACHE_TTL_MS) :
    handleGET menv cache req =
      ((if req.debug then
          GetResponse.json cached.value
            (some { totalCount := req.rows.length,
                    ventCount := (req.rows.filter (fun r => r.vent_entry.getD false)).length,
                    nonVentCount := req.rows.length -
                      (req.rows.filter (fun r => r.vent_entry.getD false)).length })
            (some { servedFromCache := true,
                    ageSeconds := (req.now - cached.atMs).fdiv 1000,
                    entriesFingerprint := some (computeEntriesFingerprint req.rows) })
        else GetResponse.json cached.value none none), cache, false) := by
  simp [handleGET, h1, h2, h3, h4, h5]

def cachedGood : CachedPatterns :=
  { atMs := 0, fingerprint := computeEntriesFingerprint [],
    value := { shouldSpeak := true, reflection := some "r", themes := ["t"],
               invitation := none, timeRange := some "over the past week",
               debugInfo := none } }

def cacheOne : CacheMap := [("u", cachedGood)]

def reqHit : GetRequest :=
  { userId := "u", rows := [], debug := false, refresh := false, now := 1000 }

/-- C4 witness: a concrete in-TTL fingerprint-matching hit served from
the cache with no provider call. -/
theorem C4_witness :
    handleGET menvAny cacheOne reqHit =
      (GetResponse.json cachedGood.value none none, cacheOne, false) :=
  (C4_cache_fast_path menvAny cacheOne reqHit cachedGood rfl (by decide) (by decide)
    (by decide) (by decide)).trans (by decide)

/-! ### C5 -/

def singleQuoteChr : String := (Char.ofNat 39).toString

/-- The literal `{label: 'x', score: 1,}` (unquoted keys, a single-quoted
value, a trailing comma). -/
def looseInputC5 : String :=
  "\x7blabel: " ++ singleQuoteChr ++ "x" ++ singleQuoteChr ++ ", score: 1,\x7d"

set_option maxRecDepth 8000 in
/-- C5: strict `JSON.parse` rejects the loose literal, and
`tryParseJsonLoose` recovers it through the repair pass into the object
`\x7b"label":"x","score":1\x7d`. -/
theorem C5_loose_parse :
    jsonParse looseInputC5 = none ∧
    tryParseJsonLoose looseInputC5 =
      some (Json.obj [("label", Json.str "x"), ("score", Json.num 1)]) := by decide

/-! ### C6 -/

def textTwoObjs : String := "\x7b\"a\":1\x7d \x7b\"b\":2\x7d"

def objA : Json := Json.obj [("a", Json.num 1)]

def objB : Json := Json.obj [("b", Json.num 2)]

set_option maxRecDepth 8000 in
/-- C6 counterexample: both extracted candidates parse and neither
matches the schema; the last candidate (first in last-to-first order)
parses to `objB`, yet the function returns `objA`, the parse of the
earliest candidate — because the fallback slot is overwritten on every
parse success down to index 0. -/
theorem C6_counterexample :
    extractJsonObjects (stripCodeFences textTwoObjs) =
      ["\x7b\"a\":1\x7d", "\x7b\"b\":2\x7d"] ∧
    tryParseJsonLoose "\x7b\"b\":2\x7d" = some objB ∧
    modelResponseSchemaCheck objB = false ∧
    modelResponseSchemaCheck objA = false ∧
    parseBestJsonFromModelText textTwoObjs = some objA ∧
    objA ≠ objB := by decide

/-- C6 (amended): iterating last to first, the function returns the first
candidate in that order that parses and matches the schema; otherwise,
when at least one candidate parses, it returns the parsed value of the
earliest candidate in text order that parses (not the first in
iteration order); when none parse it returns nothing. -/
theorem C6_amended (text : String) :
    parseBestJsonFromModelText text =
      (match firstSchemaParse (extractJsonObjects (stripCodeFences text)).reverse with
       | some v => some v
       | none => firstParse (extractJsonObjects (stripCodeFences text))) := by
  unfold parseBestJsonFromModelText
  rw [parseBestGo_characterization, lastParse_reverse]
  cases firstSchemaParse (extractJsonObjects (stripCodeFences text)).reverse <;>
    cases hfp : firstParse (extractJsonObjects (stripCodeFences text)) <;> simp

/-! ### C7 -/

def textNested : String := "\x7b\"a\":\x7b\"b\":1\x7d\x7d"

/-- C7 counterexample: for a nested object the extractor reports the
nested inner object as its own candidate besides the single top-level
one, so its output is not "exactly the top-level balanced substrings". -/
theorem C7_counterexample :
    extractJsonObjects textNested = [textNested, "\x7b\"b\":1\x7d"] ∧
    extractJsonObjects textNested ≠ [textNested] := by decide

/-- C7 (amended): the extractor returns, for every index whose character
is a left brace, the balanced substring found by a string-aware scan
started fresh at that index (nested objects and braces inside an outer
object's strings start candidates too), in index order. -/
theorem C7_amended (text : String) :
    extractJsonObjects text = allBraceCandidates text := by
  unfold extractJsonObjects allBraceCandidates
  exact extractGo_characterization text.data

/-! ### C8 -/

/-- C8: when the gate admits the entries, the provider reply parses and
matches the schema, and the combined reflection/themes text contains a
banned substring, the caller receives `shouldSpeak = true` with the
neutral templated time-based reflection derived from the non-vent date
span and an empty themes list — never the model's text. -/
theorem C8_banned_language (env : ModelEnv) (entriesAll : List Entry) (debug : Bool)
    (modelName text : String) (finishReason : Option String) (j : Json)
    (h1 : shouldAttemptLongitudinalAnalysis (sortEntries entriesAll) = true)
    (h2 : env.hasApiKey = true)
    (h3 : env.attempt = .ok modelName text finishReason)
    (h4 : parseBestJsonFromModelText text = some j)
    (h5 : modelResponseSchemaCheck j = true)
    (h6 : includesBannedLanguage
        (combinedReflectionThemes (getReflection j) (getThemes j)) = true) :
    (generateJournalPatterns env entriesAll debug).1 =
      .ok { shouldSpeak := true,
            timeRange := some (describeTimeRange (computeSpanDays
              ((sortEntries entriesAll).filter (fun e => !e.ventEntry)))),
            reflection := some (describeTimeRange (computeSpanDays
              ((sortEntries entriesAll).filter (fun e => !e.ventEntry))) ++
              ", I’m noticing some repeating threads, but I can’t put them into words cleanly right now."),
            themes := [], invitation := none,
            debugInfo := if debug then
                some (outputDebug "banned_language"
                  ((sortEntries entriesAll).filter (fun e => !e.ventEntry)).length
                  (computeSpanDays ((sortEntries entriesAll).filter (fun e => !e.ventEntry)))
                  modelName finishReason text)
              else none } := by
  have hsan : sanitizeOutputOk (getReflection j) (getThemes j) = false := by
    unfold sanitizeOutputOk
    rw [if_neg (jsTrim_ne_empty_of_banned h6), h6]
    rfl
  simp [generateJournalPatterns, h1, h2, h3, h4, h5, hsan]

/-- A model reply whose reflection contains the banned phrase
`you should`. -/
def textBanned : String :=
  "\x7b\"shouldSpeak\":true,\"timeRange\":\"over the past week\",\"reflection\":\"You should rest more.\",\"themes\":[],\"invitation\":null\x7d"

def envBanned : ModelEnv :=
  { hasApiKey := true, attempt := .ok "models/m" textBanned none }

def jBanned : Json :=
  Json.obj [("shouldSpeak", Json.bool true), ("timeRange", Json.str "over the past week"),
            ("reflection", Json.str "You should rest more."), ("themes", Json.arr []),
            ("invitation", Json.null)]

set_option maxRecDepth 8000 in
/-- C8 witness: the theorem applied to a concrete banned reply over four
eligible entries. -/
theorem C8_witness :
    (generateJournalPatterns envBanned entriesSpan7 false).1 =
      .ok { shouldSpeak := true, timeRange := some "over the past week",
            reflection := some "over the past week, I’m noticing some repeating threads, but I can’t put them into words cleanly right now.",
            themes := [], invitation := none, debugInfo := none } :=
  (C8_banned_language envBanned entriesSpan7 false "models/m" textBanned none jBanned
    (by decide) rfl rfl (by decide) (by decide) (by decide)).trans (by decide)

/-! ### C9 -/

/-- Sortedness oldest → newest by `entryDate`, the ordering the selector
comments claim for its output. -/
def sortedByDateAsc : List Entry → Bool
  | [] => true
  | [_] => true
  | a :: b :: rest => !strLt b.entryDate a.entryDate && sortedByDateAsc (b :: rest)

def entJan1 : Entry := mkPlainEntry "2020-01-01" "a"

def entJan5vent : Entry := mkVentEntry "2020-01-05" "b"

def entJan10 : Entry := mkPlainEntry "2020-01-10" "c"

/-- C9 (code bug): on entries sorted ascending with a vent entry between
two non-vent ones, the selector's output is the vent block followed by
the non-vent block, not oldest → newest by `entryDate` as its
`oldest->newest` comment and the prompt's "oldest to newest" label state. -/
theorem C9_selector_not_sorted :
    (selectEntriesForModel [entJan1, entJan5vent, entJan10]).map (fun e => e.entryDate) =
      ["2020-01-05", "2020-01-01", "2020-01-10"] ∧
    sortedByDateAsc (selectEntriesForModel [entJan1, entJan5vent, entJan10]) = false := by
  decide

/-! ### C10 -/

/-- A model reply with duplicated themes and more than three of them. -/
def textDupThemes : String :=
  "\x7b\"shouldSpeak\":true,\"timeRange\":\"over the past week\",\"reflection\":\"Lately the same thread keeps returning.\",\"themes\":[\"a\",\"a\",\"b\",\"c\"],\"invitation\":null\x7d"

def envDupThemes : ModelEnv :=
  { hasApiKey := true, attempt := .ok "models/m" textDupThemes none }

def valDupThemes : PatternValue :=
  { shouldSpeak := true, reflection := some "Lately the same thread keeps returning.",
    themes := ["a", "a", "b", "c"], invitation := none,
    timeRange := some "over the past week", debugInfo := none }

set_option maxRecDepth 8000 in
/-- C10 counterexample: a schema-valid non-banned reply with themes
`["a","a","b","c"]` reaches the caller with the duplicate kept and four
entries, refuting both deduplication and the 0-3 bound. -/
theorem C10_counterexample :
    (generateJournalPatterns envDupThemes entriesSpan7 false).1 = .ok valDupThemes ∧
    valDupThemes.themes = ["a", "a", "b", "c"] ∧
    ¬ valDupThemes.themes.Nodup ∧
    3 < valDupThemes.themes.length := by decide

/-- C10 (amended): on the spoke path the delivered themes are the model's
themes trimmed with empty strings removed, in order — duplicates are
kept and no three-item cap is enforced. -/
theorem C10_amended (env : ModelEnv) (entriesAll : List Entry) (debug : Bool)
    (modelName text : String) (finishReason : Option String) (j : Json)
    (h1 : shouldAttemptLongitudinalAnalysis (sortEntries entriesAll) = true)
    (h2 : env.hasApiKey = true)
    (h3 : env.attempt = .ok modelName text finishReason)
    (h4 : parseBestJsonFromModelText text = some j)
    (h5 : modelResponseSchemaCheck j = true)
    (h6 : sanitizeOutputOk (getReflection j) (getThemes j) = true)
    (h7 : getShouldSpeak j = true)
    (h8 : jsTrim ((getReflection j).getD "") ≠ "") :
    (generateJournalPatterns env entriesAll debug).1 =
      .ok { shouldSpeak := true,
            reflection := some (jsTrim ((getReflection j).getD "")),
            themes := ((getThemes j).map jsTrim).filter (fun t => t ≠ ""),
            invitation := none,
            timeRange := (match getTimeRange j with
              | some s => if jsTrim s = "" then none else some (jsTrim s)
              | none => none),
            debugInfo := if debug then
                some (outputDebug "spoke"
                  ((sortEntries entriesAll).filter (fun e => !e.ventEntry)).length
                  (computeSpanDays ((sortEntries entriesAll).filter (fun e => !e.ventEntry)))
                  modelName finishReason text)
              else none } := by
  simp [generateJournalPatterns, h1, h2, h3, h4, h5, h6, h7, h8]

set_option maxRecDepth 8000 in
/-- C10 amended witness: the amended theorem applied to the duplicated
themes reply. -/
theorem C10_amended_witness :
    (generateJournalPatterns envDupThemes entriesSpan7 false).1 = .ok valDupThemes :=
  (C10_amended envDupThemes entriesSpan7 false "models/m" textDupThemes none
    (Json.obj [("shouldSpeak", Json.bool true), ("timeRange", Json.str "over the past week"),
               ("reflection", Json.str "Lately the same thread keeps returning."),
               ("themes", Json.arr [Json.str "a", Json.str "a", Json.str "b", Json.str "c"]),
               ("invitation", Json.null)])
    (by decide) rfl rfl (by decide) (by decide) (by decide) (by decide) (by decide)).trans
    (by decide)
